import Mathlib

/-!
Shallow embedding of the host coordination logic of `internal/host_lock.py`
(class `HostLock`).

The control worksheet HOST_CONTROL is modelled without its header row:
sheet row 2 is `Table.host`, sheet rows 3.. are `Table.queue` (queue index
0 is sheet row 3).  Timestamp cells ("dd/mm/YYYY HH:MM:SS" strings in the
sheet) are modelled as `Option Nat` (seconds since an arbitrary epoch;
`none` stands for an empty or unparseable cell, which the source treats
identically at every use site: the `if cell:` guard and the
`try: strptime ... except: pass` both skip the row).  Rows are modelled at
full width (gspread's `get_all_values` pads every row), so the source's
`len(row) > k` guards always hold and a "blank" row is a row of empty
cells.  Each sheet read in the source is preceded by cache invalidation
whenever coordination data was written, so inside the single process
modelled here a read always returns the current table; the `ops` counter
of `St` counts the store reads/writes an operation performs.
-/

namespace HostControl

/-- HOST_DEAD_TIMEOUT = 90 seconds without heartbeat means the host is dead. -/
def HOST_DEAD_TIMEOUT : Nat := 90

/-- OFFLINE_TIMEOUT = 180 seconds without heartbeat means offline (cleanup). -/
def OFFLINE_TIMEOUT : Nat := 180

/-- MAX_TRANSFER_ATTEMPTS = 3 attempts for a scheduled transfer. -/
def MAX_TRANSFER_ATTEMPTS : Nat := 3

/-- MIN_CLEANUP_INTERVAL = 60 seconds between heavy cleanups. -/
def MIN_CLEANUP_INTERVAL : Nat := 60

def STATUS_HOST : String := "HOST"

def STATUS_WAITING : String := "WAITING"

def STATUS_OFFLINE : String := "OFFLINE"

/-- One row of HOST_CONTROL (columns A..K). -/
structure Row where
  identity : String
  hostname : String
  user : String
  ip : String
  pid : String
  startedAt : Option Nat
  lastHeartbeat : Option Nat
  status : String
  transferAt : Option Nat
  transferTo : String
  queuePos : Option Nat
deriving DecidableEq, Repr

/-- A fully blank row, as written by `ws.update("A2:K2", [[ "", ..., "" ]])`. -/
def Row.empty : Row := ⟨"", "", "", "", "", none, none, "", none, "", none⟩

/-- The control table: sheet row 2 (`host`) plus sheet rows 3.. (`queue`). -/
structure Table where
  host : Row
  queue : List Row
deriving DecidableEq, Repr

/-- Per-process constants fixed in `HostLock.__init__`, plus the current time. -/
structure Ctx where
  machineId : String
  identity : String
  hostname : String
  user : String
  ip : String
  pid : String
  now : Nat
deriving Repr

/-- Mutable process state: the shared table, the local `is_host` flag, the
cleanup throttle timestamp and a counter of store reads/writes performed. -/
structure St where
  table : Table
  isHost : Bool
  lastCleanup : Nat
  ops : Nat
deriving DecidableEq, Repr

/-- Whitespace strip at both ends, Python's `str.strip()`. -/
def trimChars (s : List Char) : List Char :=
  ((s.dropWhile Char.isWhitespace).reverse.dropWhile Char.isWhitespace).reverse

/-- Prefix of a character list up to (excluding) the first occurrence of the
separator, i.e. `s.split(sep)[0]` of Python. -/
def splitHead (sep : List Char) : List Char → List Char
  | [] => []
  | c :: rest => if sep.isPrefixOf (c :: rest) then [] else c :: splitHead sep rest

/-- `_extract_machine_id`: take what precedes " (PID:" in a stripped identity. -/
def extractMachineId (identity : String) : Option String :=
  if identity = "" then none
  else
    let p := trimChars (splitHead " (PID:".toList (trimChars identity.toList))
    if p = [] then none else some (String.mk p)

/-- `_is_same_machine`: Python's `self.machine_id in identity`, i.e. substring
containment of the caller's machine id in the row's identity string. -/
def isSameMachine (ctx : Ctx) (identity : String) : Bool :=
  if identity = "" then false
  else decide (ctx.machineId.toList <:+: identity.toList)

/-- Heartbeat age strictly exceeds `timeout` (an absent or unparseable
heartbeat never counts as stale, matching the source's guards). -/
def hbStale (now timeout : Nat) (hb : Option Nat) : Bool :=
  match hb with
  | none => false
  | some t => decide (timeout < now - t)

/-- A parseable heartbeat within OFFLINE_TIMEOUT, the candidate-liveness test
of `execute_scheduled_transfer`'s next-in-queue mode. -/
def hbLive (now : Nat) (hb : Option Nat) : Bool :=
  match hb with
  | none => false
  | some t => decide (now - t ≤ OFFLINE_TIMEOUT)

/-- Helper for `_get_my_queue_position`: first same-machine queue row,
reported 1-based (the source returns `i - 1` for data index `i ≥ 2`). -/
def getMyQueuePositionAux (ctx : Ctx) : List Row → Nat → Nat
  | [], _ => 0
  | r :: rest, i =>
    if isSameMachine ctx r.identity then i else getMyQueuePositionAux ctx rest (i + 1)

/-- `_get_my_queue_position`: 0 when this machine occupies no queue row. -/
def getMyQueuePosition (ctx : Ctx) (t : Table) : Nat :=
  getMyQueuePositionAux ctx t.queue 1

/-- Write a status (and optionally the queue-position cell) into a row. -/
def setStatusPos (r : Row) (status : String) (pos : Option Nat) : Row :=
  match pos with
  | none => { r with status := status }
  | some p => { r with status := status, queuePos := some p }

/-- Update the first same-machine row of a list, reporting whether one was found. -/
def updateFirstSame (ctx : Ctx) (status : String) (pos : Option Nat) :
    List Row → List Row × Bool
  | [] => ([], false)
  | r :: rest =>
    if isSameMachine ctx r.identity then (setStatusPos r status pos :: rest, true)
    else
      let p := updateFirstSame ctx status pos rest
      (r :: p.1, p.2)

/-- `_update_my_status`: scan from the HOST row (data index 1) for the first
same-machine row and write status/position there. -/
def updateMyStatus (ctx : Ctx) (st : St) (status : String) (pos : Option Nat) : St :=
  if isSameMachine ctx st.table.host.identity then
    { st with table := { st.table with host := setStatusPos st.table.host status pos },
              ops := st.ops + 2 }
  else
    let p := updateFirstSame ctx status pos st.table.queue
    if p.2 then { st with table := { st.table with queue := p.1 }, ops := st.ops + 2 }
    else { st with ops := st.ops + 1 }

/-- `_update_queue_positions` body: each non-blank queue row at data index `i`
gets position `i - 1`; blank rows are skipped but still consume an index. -/
def renumberFrom (i : Nat) : List Row → List Row
  | [] => []
  | r :: rest =>
    (if r.identity = "" then r else { r with queuePos := some i }) :: renumberFrom (i + 1) rest

/-- `_update_queue_positions`: forced re-read then one batch write. -/
def updateQueuePositions (st : St) : St :=
  { st with table := { st.table with queue := renumberFrom 1 st.table.queue },
            ops := st.ops + 2 }

/-- The caller's own record as written into the sheet. -/
def myRow (ctx : Ctx) (status : String) (pos : Option Nat) : Row :=
  ⟨ctx.identity, ctx.hostname, ctx.user, ctx.ip, ctx.pid,
   some ctx.now, some ctx.now, status, none, "", pos⟩

/-- `_become_host`: overwrite A2:K2 with this process's record. -/
def becomeHost (ctx : Ctx) (st : St) : St :=
  { st with table := { st.table with host := myRow ctx STATUS_HOST none },
            isHost := true, ops := st.ops + 1 }

/-- Queue pass of `_cleanup_all` on data indices 2.., with the `seen` set of
machine ids.  Blank rows are skipped outright.  A row whose machine id was
already seen is deleted (its heartbeat is never examined); otherwise its
machine id is recorded, then an offline row (age > OFFLINE_TIMEOUT) is
deleted, and a merely dead row (age > HOST_DEAD_TIMEOUT) whose status is
neither OFFLINE nor HOST is re-marked OFFLINE.  The Bool is `did_change`. -/
def cleanScan (now : Nat) : List String → List Row → List Row × Bool
  | _, [] => ([], false)
  | seen, r :: rest =>
    if r.identity = "" then
      let p := cleanScan now seen rest
      (r :: p.1, p.2)
    else
      match extractMachineId r.identity with
      | some k =>
        if seen.contains k then
          let p := cleanScan now seen rest
          (p.1, true)
        else
          if hbStale now OFFLINE_TIMEOUT r.lastHeartbeat then
            let p := cleanScan now (k :: seen) rest
            (p.1, true)
          else if hbStale now HOST_DEAD_TIMEOUT r.lastHeartbeat
                  && (r.status != STATUS_OFFLINE) && (r.status != STATUS_HOST) then
            let p := cleanScan now (k :: seen) rest
            ({ r with status := STATUS_OFFLINE } :: p.1, true)
          else
            let p := cleanScan now (k :: seen) rest
            (r :: p.1, p.2)
      | none =>
        if hbStale now OFFLINE_TIMEOUT r.lastHeartbeat then
          let p := cleanScan now seen rest
          (p.1, true)
        else if hbStale now HOST_DEAD_TIMEOUT r.lastHeartbeat
                && (r.status != STATUS_OFFLINE) && (r.status != STATUS_HOST) then
          let p := cleanScan now seen rest
          ({ r with status := STATUS_OFFLINE } :: p.1, true)
        else
          let p := cleanScan now seen rest
          (r :: p.1, p.2)

/-- `_cleanup_all`: throttled unless forced; if the HOST row is dead it is
cleared and the function returns at once (the queue pass is skipped);
otherwise the queue pass runs and, when something changed, positions are
renumbered.  Returns `did_change`. -/
def cleanupAll (ctx : Ctx) (st : St) (force : Bool) : St × Bool :=
  if !force && decide (ctx.now - st.lastCleanup < MIN_CLEANUP_INTERVAL) then (st, false)
  else
    let st := { st with lastCleanup := ctx.now }
    if hbStale ctx.now HOST_DEAD_TIMEOUT st.table.host.lastHeartbeat then
      ({ st with table := { st.table with host := Row.empty }, ops := st.ops + 1 }, true)
    else
      let p := cleanScan ctx.now [] st.table.queue
      if p.2 then
        (updateQueuePositions
          { st with table := { st.table with queue := p.1 }, ops := st.ops + 1 }, true)
      else (st, false)

/-- Tag for the message returned by `try_acquire_host`. -/
inductive AcqMsg where
  | alreadyQueued
  | acquired
  | forcedAcquire
  | recovered
  | joinedQueue
deriving DecidableEq, Repr

/-- Result dictionary of `try_acquire_host`. -/
structure AcqResult where
  success : Bool
  isHost : Bool
  msg : AcqMsg
  currentHost : Option String
  queuePosition : Option Nat
deriving DecidableEq, Repr

/-- `_join_queue`: forced re-read, position = row count minus 1
(= queue length + 1), append the caller's record at the end. -/
def joinQueue (ctx : Ctx) (st : St) (currentHost : String) : St × AcqResult :=
  let st := { st with ops := st.ops + 1 }
  let position := st.table.queue.length + 1
  let st := { st with
    table := { st.table with
      queue := st.table.queue ++ [myRow ctx STATUS_WAITING (some position)] },
    ops := st.ops + 1 }
  (st, ⟨true, false, AcqMsg.joinedQueue, some currentHost, some position⟩)

/-- State after the initial read, the throttled cleanup pass of
`try_acquire_host` and the re-read that follows it. -/
def afterCleanup (ctx : Ctx) (st : St) (force : Bool) : St :=
  let st1 := { st with ops := st.ops + 1 }
  let st2 := (cleanupAll ctx st1 force).1
  { st2 with ops := st2.ops + 1 }

/-- `try_acquire_host`: already-queued fast path, throttled cleanup, then
acquire / recover / force / join following the source's branch order.  The
returned `current_host` comes from the data read at entry. -/
def tryAcquire (ctx : Ctx) (st : St) (force : Bool) : St × AcqResult :=
  let myPos := getMyQueuePosition ctx st.table
  if 0 < myPos then
    let st2 := updateMyStatus ctx { st with ops := st.ops + 1 } STATUS_WAITING (some myPos)
    (st2, ⟨true, false, AcqMsg.alreadyQueued, some st.table.host.identity, some myPos⟩)
  else
    let st2 := afterCleanup ctx st force
    if st2.table.host.identity = "" then
      (becomeHost ctx st2, ⟨true, true, AcqMsg.acquired, some ctx.identity, none⟩)
    else if isSameMachine ctx st2.table.host.identity then
      let st3 := { st2 with isHost := true }
      let st4 := { st3 with
        table := { st3.table with host := { st3.table.host with lastHeartbeat := some ctx.now } },
        ops := st3.ops + 1 }
      let st5 := updateMyStatus ctx st4 STATUS_HOST none
      (st5, ⟨true, true, AcqMsg.recovered, some st2.table.host.identity, none⟩)
    else if force then
      (becomeHost ctx st2, ⟨true, true, AcqMsg.forcedAcquire, some ctx.identity, none⟩)
    else
      joinQueue ctx st2 st2.table.host.identity

/-- `release_host`: a non-host returns True at once without touching the
store; the host clears A2:K2 and drops its flag. -/
def releaseHost (st : St) : St × Bool :=
  if !st.isHost then (st, true)
  else
    ({ st with table := { st.table with host := Row.empty },
               isHost := false, ops := st.ops + 1 }, true)

/-- Tag for the message of the queue / transfer management results. -/
inductive OpMsg where
  | notHost
  | notFound
  | invalidPosition
  | alreadyAtPosition
  | moved
  | removedMsg
  | cleaned
  | tooFewMinutes
  | targetNotFound
  | scheduled
  | cancelled
  | offlineTarget
  | transferred
deriving DecidableEq, Repr

/-- Structured `{success, message}` result of the management operations. -/
structure OpResult where
  success : Bool
  msg : OpMsg
deriving DecidableEq, Repr

/-- Linear scan used by move/remove/schedule/transfer: first row (from data
index 2, i.e. queue index 0 here) whose identity equals the target. -/
def findExactIdx (target : String) : List Row → Nat → Option (Nat × Row)
  | [], _ => none
  | r :: rest, i =>
    if r.identity = target then some (i, r) else findExactIdx target rest (i + 1)

/-- `move_in_queue`: host-only; locate the row, validate the position, then
`insert_row` at sheet row `new_position + 2` followed by `delete_rows` of the
old sheet row (adjusted by one when the insertion landed above it), then
renumber.  Queue-list index of sheet row `k` is `k - 3`. -/
def moveInQueue (ctx : Ctx) (st : St) (identity : String) (newPosition : Nat) :
    St × OpResult :=
  if !st.isHost then (st, ⟨false, OpMsg.notHost⟩)
  else
    let st := { st with ops := st.ops + 1 }
    match findExactIdx identity st.table.queue 0 with
    | none => (st, ⟨false, OpMsg.notFound⟩)
    | some (q0, botData) =>
      let currentPosition := q0 + 1
      let queueSize := st.table.queue.length
      if newPosition < 1 || queueSize < newPosition then
        (st, ⟨false, OpMsg.invalidPosition⟩)
      else if currentPosition = newPosition then (st, ⟨true, OpMsg.alreadyAtPosition⟩)
      else
        let afterInsert := st.table.queue.insertIdx (newPosition - 1) botData
        let eraseAt := if newPosition + 2 < q0 + 3 then q0 + 1 else q0
        let st := { st with
          table := { st.table with queue := afterInsert.eraseIdx eraseAt },
          ops := st.ops + 2 }
        (updateQueuePositions st, ⟨true, OpMsg.moved⟩)

/-- `remove_from_queue`: host-only; delete the row and renumber. -/
def removeFromQueue (ctx : Ctx) (st : St) (identity : String) : St × OpResult :=
  if !st.isHost then (st, ⟨false, OpMsg.notHost⟩)
  else
    let st := { st with ops := st.ops + 1 }
    match findExactIdx identity st.table.queue 0 with
    | none => (st, ⟨false, OpMsg.notFound⟩)
    | some (q0, _) =>
      let st := { st with
        table := { st.table with queue := st.table.queue.eraseIdx q0 },
        ops := st.ops + 1 }
      (updateQueuePositions st, ⟨true, OpMsg.removedMsg⟩)

/-- Scan of `cleanup_dead_bots`: delete every non-blank queue row whose
heartbeat age exceeds OFFLINE_TIMEOUT, counting the deletions. -/
def deadScan (now : Nat) : List Row → List Row × Nat
  | [] => ([], 0)
  | r :: rest =>
    let p := deadScan now rest
    if (r.identity != "") && hbStale now OFFLINE_TIMEOUT r.lastHeartbeat then
      (p.1, p.2 + 1)
    else (r :: p.1, p.2)

/-- Result of `cleanup_dead_bots` with its `removed` count. -/
structure CleanResult where
  success : Bool
  msg : OpMsg
  removed : Nat
deriving DecidableEq, Repr

/-- `cleanup_dead_bots`: host-only; reverse-order deletion of offline queue
rows, renumbering only when something was removed. -/
def cleanupDeadBots (ctx : Ctx) (st : St) : St × CleanResult :=
  if !st.isHost then (st, ⟨false, OpMsg.notHost, 0⟩)
  else
    let st := { st with ops := st.ops + 1 }
    let p := deadScan ctx.now st.table.queue
    if 0 < p.2 then
      let st := { st with table := { st.table with queue := p.1 }, ops := st.ops + 1 }
      (updateQueuePositions st, ⟨true, OpMsg.cleaned, p.2⟩)
    else (st, ⟨true, OpMsg.cleaned, 0⟩)

/-- `schedule_transfer`: host-only; at least 1 minute; a named target must
exist in the queue; writes (transfer_at, target) into I2:J2. -/
def scheduleTransfer (ctx : Ctx) (st : St) (minutes : Nat) (target : String) :
    St × OpResult :=
  if !st.isHost then (st, ⟨false, OpMsg.notHost⟩)
  else if minutes < 1 then (st, ⟨false, OpMsg.tooFewMinutes⟩)
  else
    let transferAt := ctx.now + 60 * minutes
    if target = "" then
      ({ st with
          table := { st.table with
            host := { st.table.host with transferAt := some transferAt, transferTo := "" } },
          ops := st.ops + 1 }, ⟨true, OpMsg.scheduled⟩)
    else
      let st := { st with ops := st.ops + 1 }
      match findExactIdx target st.table.queue 0 with
      | none => (st, ⟨false, OpMsg.targetNotFound⟩)
      | some _ =>
        ({ st with
            table := { st.table with
              host := { st.table.host with transferAt := some transferAt, transferTo := target } },
            ops := st.ops + 1 }, ⟨true, OpMsg.scheduled⟩)

/-- `cancel_scheduled_transfer`: host-only; blanks I2:J2. -/
def cancelScheduledTransfer (st : St) : St × OpResult :=
  if !st.isHost then (st, ⟨false, OpMsg.notHost⟩)
  else
    ({ st with
        table := { st.table with
          host := { st.table.host with transferAt := none, transferTo := "" } },
        ops := st.ops + 1 }, ⟨true, OpMsg.cancelled⟩)

/-- The A2:K2 write performed by a transfer: the candidate's record becomes
the HOST row, heartbeat refreshed, transfer fields and position blanked. -/
def hostRowFrom (ctx : Ctx) (bot : Row) : Row :=
  ⟨bot.identity, bot.hostname, bot.user, bot.ip, bot.pid, bot.startedAt,
   some ctx.now, STATUS_HOST, none, "", none⟩

/-- `transfer_to`: host-only immediate handover with an explicit liveness
check on the target before any write. -/
def transferTo (ctx : Ctx) (st : St) (target : String) : St × OpResult :=
  if !st.isHost then (st, ⟨false, OpMsg.notHost⟩)
  else
    let st := { st with ops := st.ops + 1 }
    match findExactIdx target st.table.queue 0 with
    | none => (st, ⟨false, OpMsg.notFound⟩)
    | some (q0, bot) =>
      if hbStale ctx.now OFFLINE_TIMEOUT bot.lastHeartbeat then
        (st, ⟨false, OpMsg.offlineTarget⟩)
      else
        let st := { st with
          table := { host := hostRowFrom ctx bot, queue := st.table.queue.eraseIdx q0 },
          ops := st.ops + 2 }
        let st := updateQueuePositions st
        (({ st with isHost := false, ops := st.ops + 1 }), ⟨true, OpMsg.transferred⟩)

/-- Next-in-queue candidate search of `execute_scheduled_transfer`: first
non-blank row with a live heartbeat (a missing heartbeat is skipped). -/
def findLiveIdx (now : Nat) : List Row → Nat → Option (Nat × Row)
  | [], _ => none
  | r :: rest, i =>
    if (r.identity != "") && hbLive now r.lastHeartbeat then some (i, r)
    else findLiveIdx now rest (i + 1)

/-- Attempt loop of `execute_scheduled_transfer`: in target mode an exact
match is taken without any liveness check, and a missing target downgrades
to next-in-queue mode consuming the attempt; in next-in-queue mode a failed
scan sleeps, re-reads and retries until the attempt budget runs out. -/
def execLoop (now : Nat) (queue : List Row) : Nat → String → Option (Nat × Row)
  | 0, _ => none
  | fuel + 1, target =>
    if target = "" then
      match findLiveIdx now queue 0 with
      | some c => some c
      | none => execLoop now queue fuel ""
    else
      match findExactIdx target queue 0 with
      | some c => some c
      | none => execLoop now queue fuel ""

/-- `execute_scheduled_transfer`: up to MAX_TRANSFER_ATTEMPTS attempts; on a
found candidate the transfer writes run and `is_host` drops; on exhaustion
the transfer fields are blanked, the caller stays host and False returns. -/
def executeScheduledTransfer (ctx : Ctx) (st : St) : St × Bool :=
  if !st.isHost then (st, false)
  else
    let st := { st with ops := st.ops + 1 }
    match execLoop ctx.now st.table.queue MAX_TRANSFER_ATTEMPTS st.table.host.transferTo with
    | some (q0, bot) =>
      let st := { st with
        table := { host := hostRowFrom ctx bot, queue := st.table.queue.eraseIdx q0 },
        ops := st.ops + 2 }
      let st := updateQueuePositions st
      ({ st with isHost := false, ops := st.ops + 1 }, true)
    | none =>
      ({ st with
          table := { st.table with
            host := { st.table.host with transferAt := none, transferTo := "" } },
          ops := st.ops + 2 }, false)

/-! Concrete instances used to evaluate the operations at specific inputs. -/

/-- A sample process context: machine id `a@b`, pid 7, current time 1000 s. -/
def wCtx : Ctx := ⟨"a@b", "a@b (PID:7)", "b", "usr", "10.0.0.2", "7", 1000⟩

/-- A sample populated row with a given identity and heartbeat. -/
def wRow (id : String) (hb : Option Nat) : Row :=
  ⟨id, "h", "u", "ip", "9", some 0, hb, STATUS_WAITING, none, "", some 1⟩

/-- Not-host state over a populated table (for guard checks). -/
def wStIdle : St :=
  ⟨⟨wRow "other@m (PID:2)" (some 990), [wRow "q@r (PID:3)" (some 990)]⟩, false, 0, 0⟩

/-- Host state whose only queue row has been silent since time 0. -/
def wStStaleTarget : St :=
  ⟨⟨wRow "a@b (PID:7)" (some 990), [wRow "t@u (PID:4)" (some 0)]⟩, true, 0, 0⟩

/-- Not-host state with a live foreign host and a throttled cleanup. -/
def wStForeignHost : St :=
  ⟨⟨wRow "other@m (PID:2)" (some 990), [wRow "q@r (PID:3)" (some 990)]⟩, false, 990, 0⟩

/-- State whose HOST row identity contains `a@b` only as a proper substring:
its machine-id component is `xa@bc`, not `a@b`. -/
def wStSubstringHost : St :=
  ⟨⟨wRow "xa@bc (PID:9)" (some 990), []⟩, false, 990, 0⟩

/-- Host state with a scheduled transfer to an identity absent from the
queue, whose only queue row is long offline. -/
def wStGhostTarget : St :=
  ⟨⟨{ wRow "a@b (PID:7)" (some 990) with transferAt := some 900, transferTo := "ghost" },
    [wRow "q@r (PID:3)" (some 0)]⟩, true, 0, 0⟩

/-- The machine key the cleanup dedups by: skip blank rows, then
`_extract_machine_id` of the identity. -/
def keyOf (r : Row) : Option String :=
  if r.identity = "" then none else extractMachineId r.identity

/-- The queue-position cells hold exactly the contiguous sequence 1..N in
row order, N being the number of non-blank queue rows. -/
def positionsContiguous (q : List Row) : Prop :=
  q.filterMap Row.queuePos = List.range' 1 (q.filter (fun r => r.identity != "")).length

/-- State with a HOST row dead since time 0 and two queue rows of the same
machine `x@y`, the first of them offline since time 0. -/
def wStDeadHost : St :=
  ⟨⟨wRow "dead@m (PID:1)" (some 0),
    [wRow "x@y (PID:1)" (some 0), wRow "x@y (PID:2)" (some 990)]⟩, false, 0, 0⟩

/-- Host state whose queue holds row A, then a blank row, then row B. -/
def wStGapQueue : St :=
  ⟨⟨wRow "other@m (PID:2)" (some 990),
    [wRow "A" (some 990), Row.empty, wRow "B" (some 990)]⟩, true, 0, 0⟩

/-! Quota-cooldown backoff of `_apply_quota_cooldown`, in exact arithmetic
(the source computes with Python floats; the formula is modelled over ℚ). -/

/-- MAX_QUOTA_BACKOFF = 120 seconds, the cap of the 429 cooldown. -/
def MAX_QUOTA_BACKOFF : ℚ := 120

/-- One strike: `_quota_backoff = min(max(_quota_backoff, 1.5) * 1.6, 120)`. -/
def stepBackoff (b : ℚ) : ℚ := min (max b 1.5 * 1.6) MAX_QUOTA_BACKOFF

/-- The stored `_quota_backoff` after n consecutive quota errors
(its initial value is 1.5). -/
def backoffAfter : Nat → ℚ
  | 0 => 1.5
  | n + 1 => stepBackoff (backoffAfter n)

/-- `cooldown = min(backoff + jitter, 120)` for a given jitter draw. -/
def cooldownOf (b j : ℚ) : ℚ := min (b + j) MAX_QUOTA_BACKOFF

/-- The allowed range of `random.uniform(0.0, 0.35 * backoff)`. -/
def jitterOK (b j : ℚ) : Prop := 0 ≤ j ∧ j ≤ 0.35 * b

/-- `_cooldown_until = max(_cooldown_until, now + cooldown)`. -/
def newDeadline (deadline now cd : ℚ) : ℚ := max deadline (now + cd)

/-! Helper lemmas. -/

theorem le_backoffAfter (n : Nat) : (1.5 : ℚ) ≤ backoffAfter n := by
  induction n with
  | zero => exact le_refl _
  | succ m ih =>
    have h1 : (1.5 : ℚ) ≤ max (backoffAfter m) 1.5 * 1.6 := by
      have := le_max_right (backoffAfter m) 1.5
      nlinarith
    have h2 : (1.5 : ℚ) ≤ MAX_QUOTA_BACKOFF := by norm_num [MAX_QUOTA_BACKOFF]
    exact le_min h1 h2

theorem backoffAfter_succ_le_cap (n : Nat) :
    backoffAfter (n + 1) ≤ MAX_QUOTA_BACKOFF :=
  min_le_right _ _

theorem stepBackoff_ge (b : ℚ) : min (1.6 * b) MAX_QUOTA_BACKOFF ≤ stepBackoff b := by
  have h1 : 1.6 * b ≤ max b 1.5 * 1.6 := by
    have := le_max_left b (1.5 : ℚ)
    nlinarith
  exact min_le_min h1 (le_refl _)

theorem findExactIdx_eq_none {tgt : String} {q : List Row}
    (h : ∀ r ∈ q, r.identity ≠ tgt) : ∀ i, findExactIdx tgt q i = none := by
  induction q with
  | nil => intro i; rfl
  | cons r rest ih =>
    intro i
    have hr : r.identity ≠ tgt := h r (List.mem_cons_self r rest)
    simp only [findExactIdx, if_neg hr]
    exact ih (fun x hx => h x (List.mem_cons_of_mem r hx)) (i + 1)

theorem findLiveIdx_eq_none {now : Nat} {q : List Row}
    (h : ∀ r ∈ q, r.identity = "" ∨ hbLive now r.lastHeartbeat = false) :
    ∀ i, findLiveIdx now q i = none := by
  induction q with
  | nil => intro i; rfl
  | cons r rest ih =>
    intro i
    have hr : ((r.identity != "") && hbLive now r.lastHeartbeat) = false := by
      rcases h r (List.mem_cons_self r rest) with h1 | h1 <;> simp [h1]
    simp only [findLiveIdx, hr, Bool.false_eq_true, if_false]
    exact ih (fun x hx => h x (List.mem_cons_of_mem r hx)) (i + 1)

theorem execLoop_empty_eq_none {now : Nat} {q : List Row}
    (h : findLiveIdx now q 0 = none) : ∀ fuel, execLoop now q fuel "" = none := by
  intro fuel
  induction fuel with
  | zero => rfl
  | succ n ih => simp [execLoop, h, ih]

theorem execLoop_eq_none {now : Nat} {q : List Row} {tgt : String}
    (hlive : findLiveIdx now q 0 = none)
    (htgt : tgt = "" ∨ findExactIdx tgt q 0 = none) :
    ∀ fuel, execLoop now q fuel tgt = none := by
  intro fuel
  cases fuel with
  | zero => rfl
  | succ n =>
    by_cases he : tgt = ""
    · subst he; exact execLoop_empty_eq_none hlive (n + 1)
    · rcases htgt with h | h
      · exact absurd h he
      · simp [execLoop, he, h, execLoop_empty_eq_none hlive n]

theorem afterCleanup_throttled (ctx : Ctx) (s : St)
    (h : ctx.now - s.lastCleanup < MIN_CLEANUP_INTERVAL) :
    afterCleanup ctx s false = { s with ops := s.ops + 1 + 1 } := by
  simp [afterCleanup, cleanupAll, h]

/-! Claim theorems. -/

/-- C6: every HOST-only operation (move_in_queue, remove_from_queue,
cleanup_dead_bots, schedule_transfer, cancel_scheduled_transfer,
transfer_to) invoked by a process that does not hold HOST returns the
structured failure `success = false` with a not-host message and leaves the
state untouched — in particular the control table is unchanged and the
store-operation counter shows no read or write. -/
theorem host_only_ops_fail_closed_when_not_host (ctx : Ctx) (st : St)
    (id tgt : String) (np mins : Nat) (h : st.isHost = false) :
    moveInQueue ctx st id np = (st, ⟨false, OpMsg.notHost⟩) ∧
    removeFromQueue ctx st id = (st, ⟨false, OpMsg.notHost⟩) ∧
    cleanupDeadBots ctx st = (st, ⟨false, OpMsg.notHost, 0⟩) ∧
    scheduleTransfer ctx st mins tgt = (st, ⟨false, OpMsg.notHost⟩) ∧
    cancelScheduledTransfer st = (st, ⟨false, OpMsg.notHost⟩) ∧
    transferTo ctx st tgt = (st, ⟨false, OpMsg.notHost⟩) := by
  refine ⟨?_, ?_, ?_, ?_, ?_, ?_⟩ <;>
    simp [moveInQueue, removeFromQueue, cleanupDeadBots, scheduleTransfer,
          cancelScheduledTransfer, transferTo, h]

/-- Witness for C6 at a concrete not-host state. -/
theorem host_only_ops_fail_closed_when_not_host_witness :
    moveInQueue wCtx wStIdle "q@r (PID:3)" 1 = (wStIdle, ⟨false, OpMsg.notHost⟩) ∧
    transferTo wCtx wStIdle "q@r (PID:3)" = (wStIdle, ⟨false, OpMsg.notHost⟩) :=
  ⟨(host_only_ops_fail_closed_when_not_host wCtx wStIdle "q@r (PID:3)" "q@r (PID:3)" 1 1 rfl).1,
   (host_only_ops_fail_closed_when_not_host wCtx wStIdle "q@r (PID:3)" "q@r (PID:3)" 1 1 rfl).2.2.2.2.2⟩

/-- C10: release_host called by a non-host reports True immediately with the
whole state (table and store-operation counter) untouched; called by the
host it clears the HOST row, leaves the queue alone, drops `is_host` and
still reports True. -/
theorem release_host_noop_unless_host (st : St) :
    (st.isHost = false → releaseHost st = (st, true)) ∧
    (st.isHost = true →
      (releaseHost st).2 = true ∧
      (releaseHost st).1.table.host = Row.empty ∧
      (releaseHost st).1.isHost = false ∧
      (releaseHost st).1.table.queue = st.table.queue) := by
  constructor <;> intro h <;> simp [releaseHost, h]

/-- Witness for C10 at a concrete non-host state and a concrete host state. -/
theorem release_host_noop_unless_host_witness :
    releaseHost wStIdle = (wStIdle, true) ∧
    (releaseHost wStStaleTarget).1.isHost = false :=
  ⟨(release_host_noop_unless_host wStIdle).1 rfl,
   ((release_host_noop_unless_host wStStaleTarget).2 rfl).2.2.1⟩

/-- C8: transfer_to performs a liveness check before transferring: when the
target queue row exists but its heartbeat age exceeds OFFLINE_TIMEOUT, the
call returns a structured failure and performs no transfer — the control
table is unchanged (HOST row kept, target row not deleted) and the caller
remains host. -/
theorem transfer_to_rejects_offline_target (ctx : Ctx) (st : St) (tgt : String)
    (q0 : Nat) (bot : Row) (hhost : st.isHost = true)
    (hfind : findExactIdx tgt st.table.queue 0 = some (q0, bot))
    (hstale : hbStale ctx.now OFFLINE_TIMEOUT bot.lastHeartbeat = true) :
    (transferTo ctx st tgt).2.success = false ∧
    (transferTo ctx st tgt).1.table = st.table ∧
    (transferTo ctx st tgt).1.isHost = true := by
  simp [transferTo, hhost, hfind, hstale]

/-- Witness for C8: the host at time 1000 refuses to hand over to the queue
row whose last heartbeat was at time 0. -/
theorem transfer_to_rejects_offline_target_witness :
    (transferTo wCtx wStStaleTarget "t@u (PID:4)").2.success = false ∧
    (transferTo wCtx wStStaleTarget "t@u (PID:4)").1.table = wStStaleTarget.table ∧
    (transferTo wCtx wStStaleTarget "t@u (PID:4)").1.isHost = true :=
  transfer_to_rejects_offline_target wCtx wStStaleTarget "t@u (PID:4)" 0
    (wRow "t@u (PID:4)" (some 0)) rfl (by decide) (by decide)

/-- C7: when try_acquire falls through to joining the queue (a non-empty
HOST row of a different machine, no force, this machine not yet queued,
cleanup throttled so the table is as read), the caller's record is appended
as the last queue row and the reported position is the prior queue length
plus one. -/
theorem try_acquire_joins_at_end (ctx : Ctx) (st : St)
    (hq : getMyQueuePosition ctx st.table = 0)
    (hthrottle : ctx.now - st.lastCleanup < MIN_CLEANUP_INTERVAL)
    (hne : st.table.host.identity ≠ "")
    (hnotsame : isSameMachine ctx st.table.host.identity = false) :
    (tryAcquire ctx st false).2.isHost = false ∧
    (tryAcquire ctx st false).2.queuePosition = some (st.table.queue.length + 1) ∧
    (tryAcquire ctx st false).1.table.queue
      = st.table.queue ++ [myRow ctx STATUS_WAITING (some (st.table.queue.length + 1))] := by
  simp [tryAcquire, hq, afterCleanup_throttled ctx st hthrottle, hne, hnotsame, joinQueue]

/-- Witness for C7: joining behind a live foreign host yields position 2 in
the sample table with one existing queue row. -/
theorem try_acquire_joins_at_end_witness :
    (tryAcquire wCtx wStForeignHost false).2.isHost = false ∧
    (tryAcquire wCtx wStForeignHost false).2.queuePosition = some 2 ∧
    (tryAcquire wCtx wStForeignHost false).1.table.queue
      = wStForeignHost.table.queue ++ [myRow wCtx STATUS_WAITING (some 2)] :=
  try_acquire_joins_at_end wCtx wStForeignHost (by decide) (by decide)
    (by decide) (by decide)

/-- C9: machine identity comparison is substring containment, not equality:
whenever the caller's machine id occurs anywhere inside the HOST row's
identity — even though that row's own machine-id component differs — the
coordinator treats the row as the caller's and try_acquire reports a
recovered session with `is_host = true`. -/
theorem same_machine_is_substring_containment (ctx : Ctx) (st : St)
    (hsub : ctx.machineId.toList <:+: st.table.host.identity.toList)
    (hne : st.table.host.identity ≠ "")
    (hdiff : extractMachineId st.table.host.identity ≠ some ctx.machineId)
    (hq : getMyQueuePosition ctx st.table = 0)
    (hthrottle : ctx.now - st.lastCleanup < MIN_CLEANUP_INTERVAL) :
    isSameMachine ctx st.table.host.identity = true ∧
    (tryAcquire ctx st false).2.msg = AcqMsg.recovered ∧
    (tryAcquire ctx st false).2.isHost = true := by
  have hsame : isSameMachine ctx st.table.host.identity = true := by
    unfold isSameMachine
    rw [if_neg hne]
    exact decide_eq_true hsub
  refine ⟨hsame, ?_, ?_⟩ <;>
    simp [tryAcquire, hq, afterCleanup_throttled ctx st hthrottle, hne, hsame]

/-- Witness for C9: machine id `a@b` against HOST identity `xa@bc (PID:9)`,
whose machine-id component is `xa@bc`. -/
theorem same_machine_is_substring_containment_witness :
    isSameMachine wCtx wStSubstringHost.table.host.identity = true ∧
    (tryAcquire wCtx wStSubstringHost false).2.msg = AcqMsg.recovered ∧
    (tryAcquire wCtx wStSubstringHost false).2.isHost = true :=
  same_machine_is_substring_containment wCtx wStSubstringHost (by decide)
    (by decide) (by decide) (by decide) (by decide)

/-- C3: when execute_scheduled_transfer runs out of its MAX_TRANSFER_ATTEMPTS
attempts without a viable candidate — the scheduled target is empty or
absent from the queue, and no queue row is live — the HOST row's
transfer_scheduled_at and transfer_to fields are cleared, its identity
fields are untouched, the caller stays host, and the call reports failure. -/
theorem exhausted_transfer_rolls_back (ctx : Ctx) (st : St)
    (hhost : st.isHost = true)
    (htgt : st.table.host.transferTo = "" ∨
      ∀ r ∈ st.table.queue, r.identity ≠ st.table.host.transferTo)
    (hdead : ∀ r ∈ st.table.queue,
      r.identity = "" ∨ hbLive ctx.now r.lastHeartbeat = false) :
    (executeScheduledTransfer ctx st).2 = false ∧
    (executeScheduledTransfer ctx st).1.table.host.transferAt = none ∧
    (executeScheduledTransfer ctx st).1.table.host.transferTo = "" ∧
    (executeScheduledTransfer ctx st).1.table.host.identity = st.table.host.identity ∧
    (executeScheduledTransfer ctx st).1.table.host.hostname = st.table.host.hostname ∧
    (executeScheduledTransfer ctx st).1.table.host.pid = st.table.host.pid ∧
    (executeScheduledTransfer ctx st).1.table.queue = st.table.queue ∧
    (executeScheduledTransfer ctx st).1.isHost = true := by
  have hnone : execLoop ctx.now st.table.queue MAX_TRANSFER_ATTEMPTS
      st.table.host.transferTo = none := by
    refine execLoop_eq_none (findLiveIdx_eq_none hdead 0) ?_ MAX_TRANSFER_ATTEMPTS
    rcases htgt with h | h
    · exact Or.inl h
    · exact Or.inr (findExactIdx_eq_none h 0)
  simp [executeScheduledTransfer, hhost, hnone]

/-- Witness for C3: a transfer scheduled to the absent identity `ghost`
while the only queue row has been silent since time 0 fails and rolls back. -/
theorem exhausted_transfer_rolls_back_witness :
    (executeScheduledTransfer wCtx wStGhostTarget).2 = false ∧
    (executeScheduledTransfer wCtx wStGhostTarget).1.table.host.transferAt = none ∧
    (executeScheduledTransfer wCtx wStGhostTarget).1.table.host.transferTo = "" ∧
    (executeScheduledTransfer wCtx wStGhostTarget).1.isHost = true := by
  have h := exhausted_transfer_rolls_back wCtx wStGhostTarget rfl
    (Or.inr (by decide)) (by decide)
  exact ⟨h.1, h.2.1, h.2.2.1, h.2.2.2.2.2.2.2⟩

/-- C5: for every run of consecutive quota errors and every admissible jitter
draw, the cooldown durations produced by `_apply_quota_cooldown` form a
non-decreasing sequence up to the cap MAX_QUOTA_BACKOFF = 120 s; once a
cooldown reaches the cap, every later cooldown equals the cap; and the
cooldown deadline never moves backwards. -/
theorem quota_cooldowns_monotone_up_to_cap (j : Nat → ℚ)
    (hj : ∀ n, jitterOK (backoffAfter (n + 1)) (j n)) :
    (∀ n, cooldownOf (backoffAfter (n + 1)) (j n)
        ≤ cooldownOf (backoffAfter (n + 2)) (j (n + 1))) ∧
    (∀ n m, n ≤ m → cooldownOf (backoffAfter (n + 1)) (j n) = MAX_QUOTA_BACKOFF →
        cooldownOf (backoffAfter (m + 1)) (j m) = MAX_QUOTA_BACKOFF) ∧
    (∀ d now n, d ≤ newDeadline d now (cooldownOf (backoffAfter (n + 1)) (j n))) := by
  have hmono : ∀ n, cooldownOf (backoffAfter (n + 1)) (j n)
      ≤ cooldownOf (backoffAfter (n + 2)) (j (n + 1)) := by
    intro n
    have hb1 : (1.5 : ℚ) ≤ backoffAfter (n + 1) := le_backoffAfter _
    obtain ⟨hj10, hj1u⟩ := hj n
    obtain ⟨hj20, hj2u⟩ := hj (n + 1)
    have hcap2 : backoffAfter (n + 2) ≤ MAX_QUOTA_BACKOFF := backoffAfter_succ_le_cap _
    calc cooldownOf (backoffAfter (n + 1)) (j n)
        = min (backoffAfter (n + 1) + j n) MAX_QUOTA_BACKOFF := rfl
      _ ≤ min (1.6 * backoffAfter (n + 1)) MAX_QUOTA_BACKOFF := by
          refine min_le_min (by nlinarith) (le_refl _)
      _ ≤ stepBackoff (backoffAfter (n + 1)) := stepBackoff_ge _
      _ = min (backoffAfter (n + 2)) MAX_QUOTA_BACKOFF := (min_eq_left hcap2).symm
      _ ≤ min (backoffAfter (n + 2) + j (n + 1)) MAX_QUOTA_BACKOFF := by
          refine min_le_min (by linarith) (le_refl _)
      _ = cooldownOf (backoffAfter (n + 2)) (j (n + 1)) := rfl
  have hstep : ∀ n, cooldownOf (backoffAfter (n + 1)) (j n) = MAX_QUOTA_BACKOFF →
      cooldownOf (backoffAfter (n + 2)) (j (n + 1)) = MAX_QUOTA_BACKOFF := by
    intro n h
    have hb1 : (1.5 : ℚ) ≤ backoffAfter (n + 1) := le_backoffAfter _
    obtain ⟨hj10, hj1u⟩ := hj n
    obtain ⟨hj20, hj2u⟩ := hj (n + 1)
    have h1 : MAX_QUOTA_BACKOFF ≤ backoffAfter (n + 1) + j n := by
      have := min_eq_right_iff.mp h
      exact this
    have h2 : (120 : ℚ) ≤ 1.35 * backoffAfter (n + 1) := by
      have h120 : MAX_QUOTA_BACKOFF = (120 : ℚ) := by norm_num [MAX_QUOTA_BACKOFF]
      rw [h120] at h1
      linarith
    have h3 : backoffAfter (n + 2) = MAX_QUOTA_BACKOFF := by
      show stepBackoff (backoffAfter (n + 1)) = MAX_QUOTA_BACKOFF
      unfold stepBackoff
      refine min_eq_right ?_
      have hm := le_max_left (backoffAfter (n + 1)) (1.5 : ℚ)
      have h120 : MAX_QUOTA_BACKOFF = (120 : ℚ) := by norm_num [MAX_QUOTA_BACKOFF]
      rw [h120]
      nlinarith
    show min (backoffAfter (n + 2) + j (n + 1)) MAX_QUOTA_BACKOFF = MAX_QUOTA_BACKOFF
    rw [h3]
    exact min_eq_right (by linarith)
  refine ⟨hmono, ?_, fun d now n => le_max_left _ _⟩
  intro n m hnm h
  induction m, hnm using Nat.le_induction with
  | base => exact h
  | succ k hk ih => exact hstep k ih

/-- Witness for C5: with zero jitter at every strike, the first cooldown is
at most the second one. -/
theorem quota_cooldowns_monotone_up_to_cap_witness :
    cooldownOf (backoffAfter 1) 0 ≤ cooldownOf (backoffAfter 2) 0 := by
  have hj : ∀ n, jitterOK (backoffAfter (n + 1)) ((fun _ => (0 : ℚ)) n) := by
    intro n
    refine ⟨le_refl _, ?_⟩
    have := le_backoffAfter (n + 1)
    nlinarith
  exact (quota_cooldowns_monotone_up_to_cap (fun _ => 0) hj).1 0

theorem cleanScan_mem_not_offline (now : Nat) :
    ∀ (q : List Row) (seen : List String), ∀ r ∈ (cleanScan now seen q).1,
      r.identity ≠ "" → hbStale now OFFLINE_TIMEOUT r.lastHeartbeat = false := by
  intro q
  induction q with
  | nil => intro seen r hr; simp [cleanScan] at hr
  | cons a rest ih =>
    intro seen r hr hne
    by_cases ha : a.identity = ""
    · simp only [cleanScan, if_pos ha] at hr
      rcases List.mem_cons.mp hr with h | h
      · subst h; exact absurd ha hne
      · exact ih seen r h hne
    · cases hk : extractMachineId a.identity with
      | some k =>
        by_cases hseen : seen.contains k = true
        · simp only [cleanScan, if_neg ha, hk, hseen, if_true] at hr
          exact ih seen r hr hne
        · rw [Bool.not_eq_true] at hseen
          by_cases hoff : hbStale now OFFLINE_TIMEOUT a.lastHeartbeat = true
          · simp only [cleanScan, if_neg ha, hk, hseen, hoff, Bool.false_eq_true,
              if_false, if_true] at hr
            exact ih (k :: seen) r hr hne
          · rw [Bool.not_eq_true] at hoff
            by_cases hmark : (hbStale now HOST_DEAD_TIMEOUT a.lastHeartbeat
                && (a.status != STATUS_OFFLINE) && (a.status != STATUS_HOST)) = true
            · simp only [cleanScan, if_neg ha, hk, hseen, hoff, hmark,
                Bool.false_eq_true, if_false, if_true] at hr
              rcases List.mem_cons.mp hr with h | h
              · subst h; exact hoff
              · exact ih (k :: seen) r h hne
            · rw [Bool.not_eq_true] at hmark
              simp only [cleanScan, if_neg ha, hk, hseen, hoff, hmark,
                Bool.false_eq_true, if_false] at hr
              rcases List.mem_cons.mp hr with h | h
              · subst h; exact hoff
              · exact ih (k :: seen) r h hne
      | none =>
        by_cases hoff : hbStale now OFFLINE_TIMEOUT a.lastHeartbeat = true
        · simp only [cleanScan, if_neg ha, hk, hoff, if_true] at hr
          exact ih seen r hr hne
        · rw [Bool.not_eq_true] at hoff
          by_cases hmark : (hbStale now HOST_DEAD_TIMEOUT a.lastHeartbeat
              && (a.status != STATUS_OFFLINE) && (a.status != STATUS_HOST)) = true
          · simp only [cleanScan, if_neg ha, hk, hoff, hmark,
              Bool.false_eq_true, if_false, if_true] at hr
            rcases List.mem_cons.mp hr with h | h
            · subst h; exact hoff
            · exact ih seen r h hne
          · rw [Bool.not_eq_true] at hmark
            simp only [cleanScan, if_neg ha, hk, hoff, hmark,
              Bool.false_eq_true, if_false] at hr
            rcases List.mem_cons.mp hr with h | h
            · subst h; exact hoff
            · exact ih seen r h hne

theorem cleanScan_keys_nodup (now : Nat) :
    ∀ (q : List Row) (seen : List String),
      ((cleanScan now seen q).1.filterMap keyOf).Nodup ∧
      ∀ k ∈ (cleanScan now seen q).1.filterMap keyOf, k ∉ seen := by
  intro q
  induction q with
  | nil => intro seen; simp [cleanScan]
  | cons a rest ih =>
    intro seen
    by_cases ha : a.identity = ""
    · simp only [cleanScan, if_pos ha, List.filterMap_cons, keyOf, if_true]
      exact ih seen
    · cases hk : extractMachineId a.identity with
      | some k =>
        by_cases hseen : seen.contains k = true
        · simp only [cleanScan, if_neg ha, hk, hseen, if_true]
          exact ih seen
        · rw [Bool.not_eq_true] at hseen
          have hkseen : k ∉ seen := by simpa using hseen
          have htail : ∀ x ∈ ((cleanScan now (k :: seen) rest).1.filterMap keyOf),
              x ∉ seen := fun x hx =>
            fun hmem => (ih (k :: seen)).2 x hx (List.mem_cons_of_mem _ hmem)
          have hknot : k ∉ (cleanScan now (k :: seen) rest).1.filterMap keyOf :=
            fun hmem => (ih (k :: seen)).2 k hmem (List.mem_cons_self _ _)
          by_cases hoff : hbStale now OFFLINE_TIMEOUT a.lastHeartbeat = true
          · simp only [cleanScan, if_neg ha, hk, hseen, hoff, Bool.false_eq_true,
              if_false, if_true]
            exact ⟨(ih (k :: seen)).1, htail⟩
          · rw [Bool.not_eq_true] at hoff
            by_cases hmark : (hbStale now HOST_DEAD_TIMEOUT a.lastHeartbeat
                && (a.status != STATUS_OFFLINE) && (a.status != STATUS_HOST)) = true
            · simp only [cleanScan, if_neg ha, hk, hseen, hoff, hmark,
                Bool.false_eq_true, if_false, if_true, List.filterMap_cons]
              simp only [keyOf, ha, if_neg ha, hk]
              refine ⟨List.nodup_cons.mpr ⟨hknot, (ih (k :: seen)).1⟩, ?_⟩
              intro x hx
              rcases List.mem_cons.mp hx with h | h
              · subst h; exact hkseen
              · exact htail x h
            · rw [Bool.not_eq_true] at hmark
              simp only [cleanScan, if_neg ha, hk, hseen, hoff, hmark,
                Bool.false_eq_true, if_false, List.filterMap_cons]
              simp only [keyOf, if_neg ha, hk]
              refine ⟨List.nodup_cons.mpr ⟨hknot, (ih (k :: seen)).1⟩, ?_⟩
              intro x hx
              rcases List.mem_cons.mp hx with h | h
              · subst h; exact hkseen
              · exact htail x h
      | none =>
        by_cases hoff : hbStale now OFFLINE_TIMEOUT a.lastHeartbeat = true
        · simp only [cleanScan, if_neg ha, hk, hoff, if_true]
          exact ih seen
        · rw [Bool.not_eq_true] at hoff
          by_cases hmark : (hbStale now HOST_DEAD_TIMEOUT a.lastHeartbeat
              && (a.status != STATUS_OFFLINE) && (a.status != STATUS_HOST)) = true
          · simp only [cleanScan, if_neg ha, hk, hoff, hmark, Bool.false_eq_true,
              if_false, if_true, List.filterMap_cons]
            simp only [keyOf, if_neg ha, hk]
            exact ih seen
          · rw [Bool.not_eq_true] at hmark
            simp only [cleanScan, if_neg ha, hk, hoff, hmark, Bool.false_eq_true,
              if_false, List.filterMap_cons]
            simp only [keyOf, if_neg ha, hk]
            exact ih seen

theorem cleanScan_no_change (now : Nat) :
    ∀ (q : List Row) (seen : List String),
      (cleanScan now seen q).2 = false → (cleanScan now seen q).1 = q := by
  intro q
  induction q with
  | nil => intro seen _; rfl
  | cons a rest ih =>
    intro seen hch
    by_cases ha : a.identity = ""
    · simp only [cleanScan, if_pos ha] at hch ⊢
      rw [ih seen hch]
    · cases hk : extractMachineId a.identity with
      | some k =>
        by_cases hseen : seen.contains k = true
        · simp only [cleanScan, if_neg ha, hk, hseen, if_true] at hch
          exact Bool.noConfusion hch
        · rw [Bool.not_eq_true] at hseen
          by_cases hoff : hbStale now OFFLINE_TIMEOUT a.lastHeartbeat = true
          · simp only [cleanScan, if_neg ha, hk, hseen, hoff, Bool.false_eq_true,
              if_false, if_true] at hch
            exact Bool.noConfusion hch
          · rw [Bool.not_eq_true] at hoff
            by_cases hmark : (hbStale now HOST_DEAD_TIMEOUT a.lastHeartbeat
                && (a.status != STATUS_OFFLINE) && (a.status != STATUS_HOST)) = true
            · simp only [cleanScan, if_neg ha, hk, hseen, hoff, hmark,
                Bool.false_eq_true, if_false, if_true] at hch
              exact Bool.noConfusion hch
            · rw [Bool.not_eq_true] at hmark
              simp only [cleanScan, if_neg ha, hk, hseen, hoff, hmark,
                Bool.false_eq_true, if_false] at hch ⊢
              rw [ih (k :: seen) hch]
      | none =>
        by_cases hoff : hbStale now OFFLINE_TIMEOUT a.lastHeartbeat = true
        · simp only [cleanScan, if_neg ha, hk, hoff, if_true] at hch
          exact Bool.noConfusion hch
        · rw [Bool.not_eq_true] at hoff
          by_cases hmark : (hbStale now HOST_DEAD_TIMEOUT a.lastHeartbeat
              && (a.status != STATUS_OFFLINE) && (a.status != STATUS_HOST)) = true
          · simp only [cleanScan, if_neg ha, hk, hoff, hmark, Bool.false_eq_true,
              if_false, if_true] at hch
            exact Bool.noConfusion hch
          · rw [Bool.not_eq_true] at hmark
            simp only [cleanScan, if_neg ha, hk, hoff, hmark, Bool.false_eq_true,
              if_false] at hch ⊢
            rw [ih seen hch]

theorem renumberFrom_mem (q : List Row) :
    ∀ (i : Nat), ∀ r ∈ renumberFrom i q, ∃ s ∈ q,
      r.identity = s.identity ∧ r.lastHeartbeat = s.lastHeartbeat := by
  induction q with
  | nil => intro i r hr; simp [renumberFrom] at hr
  | cons a rest ih =>
    intro i r hr
    simp only [renumberFrom] at hr
    rcases List.mem_cons.mp hr with h | h
    · by_cases ha : a.identity = ""
      · rw [if_pos ha] at h
        exact ⟨a, List.mem_cons_self _ _, by rw [h], by rw [h]⟩
      · rw [if_neg ha] at h
        exact ⟨a, List.mem_cons_self _ _, by rw [h], by rw [h]⟩
    · obtain ⟨s, hs, h1, h2⟩ := ih (i + 1) r h
      exact ⟨s, List.mem_cons_of_mem _ hs, h1, h2⟩

theorem renumberFrom_filterMap_keyOf (q : List Row) :
    ∀ (i : Nat), (renumberFrom i q).filterMap keyOf = q.filterMap keyOf := by
  induction q with
  | nil => intro i; rfl
  | cons a rest ih =>
    intro i
    by_cases ha : a.identity = ""
    · simp only [renumberFrom, if_pos ha, List.filterMap_cons, keyOf, if_true, ih]
    · simp only [renumberFrom, if_neg ha, List.filterMap_cons]
      simp only [keyOf, if_neg ha, ih]

theorem renumberFrom_length (q : List Row) : ∀ i, (renumberFrom i q).length = q.length := by
  induction q with
  | nil => intro i; rfl
  | cons a rest ih => intro i; simp [renumberFrom, ih]

theorem renumberFrom_positions (q : List Row) (h : ∀ r ∈ q, r.identity ≠ "") :
    ∀ i, (renumberFrom i q).filterMap Row.queuePos = List.range' i q.length := by
  induction q with
  | nil => intro i; rfl
  | cons a rest ih =>
    intro i
    have ha : ¬a.identity = "" := h a (List.mem_cons_self _ _)
    have hrest := ih (fun r hr => h r (List.mem_cons_of_mem _ hr))
    simp only [renumberFrom, if_neg ha, List.filterMap_cons, List.length_cons,
      List.range'_succ]
    rw [hrest (i + 1)]

theorem positionsContiguous_renumber (q : List Row) (h : ∀ r ∈ q, r.identity ≠ "") :
    positionsContiguous (renumberFrom 1 q) := by
  unfold positionsContiguous
  rw [renumberFrom_positions q h 1]
  have hall : ∀ r ∈ renumberFrom 1 q, (r.identity != "") = true := by
    intro r hr
    obtain ⟨s, hs, h1, _⟩ := renumberFrom_mem q 1 r hr
    simpa [h1] using h s hs
  rw [List.filter_eq_self.mpr hall, renumberFrom_length]

theorem findExactIdx_mem {tgt : String} {q : List Row} :
    ∀ {i j : Nat} {r : Row}, findExactIdx tgt q i = some (j, r) →
      r ∈ q ∧ r.identity = tgt := by
  induction q with
  | nil => intro i j r h; exact absurd h (by simp [findExactIdx])
  | cons a rest ih =>
    intro i j r h
    by_cases ha : a.identity = tgt
    · simp only [findExactIdx, if_pos ha, Option.some.injEq, Prod.mk.injEq] at h
      obtain ⟨-, h2⟩ := h
      subst h2
      exact ⟨List.mem_cons_self _ _, ha⟩
    · simp only [findExactIdx, if_neg ha] at h
      obtain ⟨h1, h2⟩ := ih h
      exact ⟨List.mem_cons_of_mem _ h1, h2⟩

theorem deadScan_subset (now : Nat) (q : List Row) :
    ∀ r ∈ (deadScan now q).1, r ∈ q := by
  induction q with
  | nil => intro r hr; simp [deadScan] at hr
  | cons a rest ih =>
    intro r hr
    simp only [deadScan] at hr
    by_cases hc : ((a.identity != "") && hbStale now OFFLINE_TIMEOUT a.lastHeartbeat) = true
    · rw [if_pos hc] at hr
      exact List.mem_cons_of_mem _ (ih r hr)
    · rw [if_neg hc] at hr
      rcases List.mem_cons.mp hr with h | h
      · exact h ▸ List.mem_cons_self _ _
      · exact List.mem_cons_of_mem _ (ih r h)

/-- C1 counterexample: on a table whose HOST row is dead, one un-throttled
cleanup invocation clears the HOST row and returns without running the
queue pass — a queue row offline for 1000 s, together with a later row of
the same machine id (a duplicate), both survive the very invocation that
the claim says deletes them. -/
theorem cleanup_all_skips_queue_counterexample :
    (cleanupAll wCtx wStDeadHost true).1.table.host = Row.empty ∧
    (cleanupAll wCtx wStDeadHost true).1.table.queue = wStDeadHost.table.queue ∧
    wRow "x@y (PID:1)" (some 0) ∈ (cleanupAll wCtx wStDeadHost true).1.table.queue ∧
    wRow "x@y (PID:2)" (some 990) ∈ (cleanupAll wCtx wStDeadHost true).1.table.queue ∧
    hbStale wCtx.now OFFLINE_TIMEOUT (wRow "x@y (PID:1)" (some 0)).lastHeartbeat = true ∧
    keyOf (wRow "x@y (PID:1)" (some 0)) = keyOf (wRow "x@y (PID:2)" (some 990)) := by
  refine ⟨?_, ?_, ?_, ?_, ?_, ?_⟩ <;> decide

/-- C1 (amended): an un-throttled cleanup invocation has two mutually
exclusive behaviours: when the HOST row's heartbeat age exceeds
HOST_DEAD_TIMEOUT it clears the HOST row and returns immediately, leaving
the queue untouched; only when the HOST row is not dead does the queue pass
run, after which no surviving non-blank queue row is offline past
OFFLINE_TIMEOUT and the surviving machine ids are pairwise distinct. -/
theorem cleanup_all_dead_host_else_queue_pass (ctx : Ctx) (st : St) (force : Bool)
    (hrun : force = true ∨ MIN_CLEANUP_INTERVAL ≤ ctx.now - st.lastCleanup) :
    (hbStale ctx.now HOST_DEAD_TIMEOUT st.table.host.lastHeartbeat = true →
      (cleanupAll ctx st force).1.table.host = Row.empty ∧
      (cleanupAll ctx st force).1.table.queue = st.table.queue) ∧
    (hbStale ctx.now HOST_DEAD_TIMEOUT st.table.host.lastHeartbeat = false →
      (cleanupAll ctx st force).1.table.host = st.table.host ∧
      (∀ r ∈ (cleanupAll ctx st force).1.table.queue,
        r.identity ≠ "" → hbStale ctx.now OFFLINE_TIMEOUT r.lastHeartbeat = false) ∧
      ((cleanupAll ctx st force).1.table.queue.filterMap keyOf).Nodup) := by
  have hthr : (!force && decide (ctx.now - st.lastCleanup < MIN_CLEANUP_INTERVAL)) = false := by
    rcases hrun with h | h
    · simp [h]
    · simp [Nat.not_lt.mpr h]
  constructor
  · intro hdead
    simp [cleanupAll, hthr, hdead]
  · intro halive
    have h1 := cleanScan_mem_not_offline ctx.now st.table.queue []
    have h2 := cleanScan_keys_nodup ctx.now st.table.queue []
    by_cases hch : (cleanScan ctx.now [] st.table.queue).2 = true
    · simp only [cleanupAll, hthr, Bool.false_eq_true, if_false, halive, hch, if_true,
        updateQueuePositions]
      refine ⟨by trivial, ?_, ?_⟩
      · intro r hr hne
        obtain ⟨s, hs, hid, hhb⟩ := renumberFrom_mem _ 1 r hr
        rw [hhb]
        exact h1 s hs (hid ▸ hne)
      · rw [renumberFrom_filterMap_keyOf]
        exact h2.1
    · rw [Bool.not_eq_true] at hch
      have heq := cleanScan_no_change ctx.now st.table.queue [] hch
      simp only [cleanupAll, hthr, Bool.false_eq_true, if_false, halive, hch]
      refine ⟨by trivial, ?_, ?_⟩
      · intro r hr hne
        have hr' : r ∈ (cleanScan ctx.now [] st.table.queue).1 := by
          rw [heq]; exact hr
        exact h1 r hr' hne
      · have hnd := h2.1
        rw [heq] at hnd
        exact hnd

/-- Witness for the amended C1 at the concrete dead-host state. -/
theorem cleanup_all_dead_host_else_queue_pass_witness :
    (cleanupAll wCtx wStDeadHost true).1.table.host = Row.empty ∧
    (cleanupAll wCtx wStDeadHost true).1.table.queue = wStDeadHost.table.queue :=
  (cleanup_all_dead_host_else_queue_pass wCtx wStDeadHost true (Or.inl rfl)).1 (by decide)

/-- C2 counterexample: with a blank row interleaved in the queue, a
successful remove_from_queue renumbers by row ordinal and leaves a gap —
the single remaining non-blank row gets position 2, not 1. -/
theorem queue_positions_gap_counterexample :
    (removeFromQueue wCtx wStGapQueue "A").2.success = true ∧
    ¬ positionsContiguous (removeFromQueue wCtx wStGapQueue "A").1.table.queue := by
  constructor
  · decide
  · unfold positionsContiguous
    decide

/-- C2 (amended): provided every queue row is non-blank, each operation that
actually renumbers — a successful remove, a move that relocates its row, or
a cleanup that removed at least one row — leaves queue_position values that
are exactly the contiguous sequence 1..N in row order; with blank
interleaved rows the renumbering is row-ordinal based and can leave gaps,
and operations that change nothing do not rewrite positions. -/
theorem queue_ops_renumber_contiguously (ctx : Ctx) (st : St)
    (hwf : ∀ r ∈ st.table.queue, r.identity ≠ "") :
    (∀ id, (removeFromQueue ctx st id).2.success = true →
      positionsContiguous (removeFromQueue ctx st id).1.table.queue) ∧
    (∀ id np, (moveInQueue ctx st id np).2.msg = OpMsg.moved →
      positionsContiguous (moveInQueue ctx st id np).1.table.queue) ∧
    (0 < (cleanupDeadBots ctx st).2.removed →
      positionsContiguous (cleanupDeadBots ctx st).1.table.queue) := by
  refine ⟨?_, ?_, ?_⟩
  · intro id hs
    by_cases hh : st.isHost
    · cases hfind : findExactIdx id st.table.queue 0 with
      | none => simp [removeFromQueue, hh, hfind] at hs
      | some p =>
        obtain ⟨q0, bot⟩ := p
        simp only [removeFromQueue, hh, Bool.not_true, Bool.false_eq_true, if_false,
          hfind, updateQueuePositions]
        exact positionsContiguous_renumber _
          (fun r hr => hwf r (List.eraseIdx_subset _ _ hr))
    · simp [removeFromQueue, hh] at hs
  · intro id np hs
    by_cases hh : st.isHost
    · cases hfind : findExactIdx id st.table.queue 0 with
      | none => simp [moveInQueue, hh, hfind] at hs
      | some p =>
        obtain ⟨q0, bot⟩ := p
        by_cases hval : np = 0 ∨ st.table.queue.length < np
        · simp [moveInQueue, hh, hfind, hval] at hs
        · by_cases hcur : q0 + 1 = np
          · simp [moveInQueue, hh, hfind, hval, hcur] at hs
          · simp only [moveInQueue, hh, Bool.not_true, Bool.false_eq_true, if_false, hfind]
            rw [if_neg (by simpa [Nat.lt_one_iff] using hval), if_neg hcur]
            simp only [updateQueuePositions]
            refine positionsContiguous_renumber _ ?_
            intro r hr
            have hsub := List.eraseIdx_subset _ _ hr
            have hnp : np - 1 ≤ st.table.queue.length := by omega
            rcases (List.mem_insertIdx hnp).mp hsub with h | h
            · exact h ▸ hwf bot (findExactIdx_mem hfind).1
            · exact hwf r h
    · simp [moveInQueue, hh] at hs
  · intro hrem
    by_cases hh : st.isHost
    · by_cases hp : 0 < (deadScan ctx.now st.table.queue).2
      · simp only [cleanupDeadBots, hh, Bool.not_true, Bool.false_eq_true, if_false,
          hp, if_true, updateQueuePositions]
        exact positionsContiguous_renumber _
          (fun r hr => hwf r (deadScan_subset ctx.now st.table.queue r hr))
      · simp [cleanupDeadBots, hh, hp] at hrem
    · simp [cleanupDeadBots, hh] at hrem

/-- Witness for the amended C2: removing the stale-but-present queue row of
the sample host state leaves the (empty) queue contiguously numbered. -/
theorem queue_ops_renumber_contiguously_witness :
    positionsContiguous (removeFromQueue wCtx wStStaleTarget "t@u (PID:4)").1.table.queue :=
  (queue_ops_renumber_contiguously wCtx wStStaleTarget (by decide)).1 "t@u (PID:4)" (by decide)

theorem isSameMachine_ne_empty {ctx : Ctx} {s : String}
    (h : isSameMachine ctx s = true) : s ≠ "" := by
  intro he
  rw [he] at h
  simp [isSameMachine] at h

theorem setStatusPos_status (r : Row) (s : String) (p : Option Nat) :
    (setStatusPos r s p).status = s := by
  cases p <;> rfl

theorem setStatusPos_identity (r : Row) (s : String) (p : Option Nat) :
    (setStatusPos r s p).identity = r.identity := by
  cases p <;> rfl

theorem getMyQueuePositionAux_congr (ctx : Ctx) :
    ∀ {q1 q2 : List Row}, q1.map Row.identity = q2.map Row.identity →
      ∀ i, getMyQueuePositionAux ctx q1 i = getMyQueuePositionAux ctx q2 i := by
  intro q1
  induction q1 with
  | nil =>
    intro q2 h i
    cases q2 with
    | nil => rfl
    | cons b bs => simp at h
  | cons a as ih =>
    intro q2 h i
    cases q2 with
    | nil => simp at h
    | cons b bs =>
      simp only [List.map_cons, List.cons.injEq] at h
      obtain ⟨h1, h2⟩ := h
      simp only [getMyQueuePositionAux, h1]
      rw [ih h2 (i + 1)]

theorem getMyQueuePositionAux_zero (ctx : Ctx) :
    ∀ (q : List Row) (i : Nat), 0 < i → getMyQueuePositionAux ctx q i = 0 →
      ∀ r ∈ q, isSameMachine ctx r.identity = false := by
  intro q
  induction q with
  | nil => intro i _ _ r hr; simp at hr
  | cons a as ih =>
    intro i hi h r hr
    by_cases ha : isSameMachine ctx a.identity = true
    · simp only [getMyQueuePositionAux, ha, if_true] at h
      omega
    · rw [Bool.not_eq_true] at ha
      simp only [getMyQueuePositionAux, ha, Bool.false_eq_true, if_false] at h
      rcases List.mem_cons.mp hr with h1 | h1
      · rw [h1]; exact ha
      · exact ih (i + 1) (by omega) h r h1

theorem getMyQueuePositionAux_of_none (ctx : Ctx) :
    ∀ (q : List Row), (∀ r ∈ q, isSameMachine ctx r.identity = false) →
      ∀ i, getMyQueuePositionAux ctx q i = 0 := by
  intro q
  induction q with
  | nil => intro _ i; rfl
  | cons a as ih =>
    intro h i
    have ha := h a (List.mem_cons_self _ _)
    simp only [getMyQueuePositionAux, ha, Bool.false_eq_true, if_false]
    exact ih (fun r hr => h r (List.mem_cons_of_mem _ hr)) (i + 1)

theorem getMyQueuePositionAux_append (ctx : Ctx) {x : Row}
    (hx : isSameMachine ctx x.identity = true) :
    ∀ (q : List Row), (∀ r ∈ q, isSameMachine ctx r.identity = false) →
      ∀ i, getMyQueuePositionAux ctx (q ++ [x]) i = q.length + i := by
  intro q
  induction q with
  | nil => intro _ i; simp [getMyQueuePositionAux, hx]
  | cons a as ih =>
    intro h i
    have ha := h a (List.mem_cons_self _ _)
    simp only [List.cons_append, getMyQueuePositionAux, ha, Bool.false_eq_true, if_false,
      List.append_eq]
    rw [ih (fun r hr => h r (List.mem_cons_of_mem _ hr)) (i + 1)]
    simp only [List.length_cons]
    omega

theorem updateFirstSame_map_identity (ctx : Ctx) (s : String) (p : Option Nat) :
    ∀ q : List Row, (updateFirstSame ctx s p q).1.map Row.identity = q.map Row.identity := by
  intro q
  induction q with
  | nil => rfl
  | cons a as ih =>
    by_cases ha : isSameMachine ctx a.identity = true
    · simp [updateFirstSame, ha, setStatusPos_identity]
    · rw [Bool.not_eq_true] at ha
      simp [updateFirstSame, ha, ih]

theorem updateFirstSame_exists (ctx : Ctx) (s : String) (p : Option Nat) :
    ∀ q : List Row, (∃ r ∈ q, isSameMachine ctx r.identity = true) →
      ∃ r ∈ (updateFirstSame ctx s p q).1,
        isSameMachine ctx r.identity = true ∧ r.status = s := by
  intro q
  induction q with
  | nil => intro h; simp at h
  | cons a as ih =>
    intro h
    by_cases ha : isSameMachine ctx a.identity = true
    · refine ⟨setStatusPos a s p, ?_, ?_, setStatusPos_status a s p⟩
      · simp [updateFirstSame, ha]
      · rw [setStatusPos_identity]; exact ha
    · rw [Bool.not_eq_true] at ha
      have h2 : ∃ r ∈ as, isSameMachine ctx r.identity = true := by
        obtain ⟨r, hr, hs⟩ := h
        rcases List.mem_cons.mp hr with h1 | h1
        · rw [h1] at hs; rw [hs] at ha; exact absurd ha (by simp)
        · exact ⟨r, h1, hs⟩
      obtain ⟨r, hr, hs1, hs2⟩ := ih h2
      refine ⟨r, ?_, hs1, hs2⟩
      simp only [updateFirstSame, ha, Bool.false_eq_true, if_false]
      exact List.mem_cons_of_mem _ hr

theorem updateFirstSame_found (ctx : Ctx) (s : String) (p : Option Nat) :
    ∀ q : List Row, (∃ r ∈ q, isSameMachine ctx r.identity = true) →
      (updateFirstSame ctx s p q).2 = true := by
  intro q
  induction q with
  | nil => intro h; simp at h
  | cons a as ih =>
    intro h
    by_cases ha : isSameMachine ctx a.identity = true
    · simp [updateFirstSame, ha]
    · rw [Bool.not_eq_true] at ha
      simp only [updateFirstSame, ha, Bool.false_eq_true, if_false]
      obtain ⟨r, hr, hs⟩ := h
      rcases List.mem_cons.mp hr with h1 | h1
      · rw [h1] at hs; rw [hs] at ha; exact absurd ha (by simp)
      · exact ih ⟨r, h1, hs⟩

theorem updateMyStatus_host_identity (ctx : Ctx) (st : St) (s : String) (p : Option Nat) :
    (updateMyStatus ctx st s p).table.host.identity = st.table.host.identity := by
  unfold updateMyStatus
  by_cases h : isSameMachine ctx st.table.host.identity = true
  · simp only [h, if_true]
    exact setStatusPos_identity _ _ _
  · rw [Bool.not_eq_true] at h
    simp only [h, Bool.false_eq_true, if_false]
    by_cases h2 : (updateFirstSame ctx s p st.table.queue).2 = true
    · simp [h2]
    · rw [Bool.not_eq_true] at h2
      simp [h2]

theorem updateMyStatus_queue_map (ctx : Ctx) (st : St) (s : String) (p : Option Nat) :
    (updateMyStatus ctx st s p).table.queue.map Row.identity
      = st.table.queue.map Row.identity := by
  unfold updateMyStatus
  by_cases h : isSameMachine ctx st.table.host.identity = true
  · simp [h]
  · rw [Bool.not_eq_true] at h
    simp only [h, Bool.false_eq_true, if_false]
    by_cases h2 : (updateFirstSame ctx s p st.table.queue).2 = true
    · simp only [h2, if_true]
      exact updateFirstSame_map_identity ctx s p st.table.queue
    · rw [Bool.not_eq_true] at h2
      simp [h2]

theorem updateMyStatus_isHost (ctx : Ctx) (st : St) (s : String) (p : Option Nat) :
    (updateMyStatus ctx st s p).isHost = st.isHost := by
  unfold updateMyStatus
  by_cases h : isSameMachine ctx st.table.host.identity = true
  · simp [h]
  · rw [Bool.not_eq_true] at h
    by_cases h2 : (updateFirstSame ctx s p st.table.queue).2 = true
    · simp [h, h2]
    · rw [Bool.not_eq_true] at h2
      simp [h, h2]

theorem updateMyStatus_lastCleanup (ctx : Ctx) (st : St) (s : String) (p : Option Nat) :
    (updateMyStatus ctx st s p).lastCleanup = st.lastCleanup := by
  unfold updateMyStatus
  by_cases h : isSameMachine ctx st.table.host.identity = true
  · simp [h]
  · rw [Bool.not_eq_true] at h
    by_cases h2 : (updateFirstSame ctx s p st.table.queue).2 = true
    · simp [h, h2]
    · rw [Bool.not_eq_true] at h2
      simp [h, h2]

theorem updateMyStatus_sets_status (ctx : Ctx) (st : St) (s : String) (p : Option Nat)
    (h : 0 < getMyQueuePosition ctx st.table) :
    ∃ r, (r = (updateMyStatus ctx st s p).table.host ∨
          r ∈ (updateMyStatus ctx st s p).table.queue) ∧
      isSameMachine ctx r.identity = true ∧ r.status = s := by
  have hq : ∃ r ∈ st.table.queue, isSameMachine ctx r.identity = true := by
    by_contra hc
    push_neg at hc
    have hz : ∀ r ∈ st.table.queue, isSameMachine ctx r.identity = false := by
      intro r hr
      have := hc r hr
      simpa using this
    have := getMyQueuePositionAux_of_none ctx st.table.queue hz 1
    rw [getMyQueuePosition] at h
    omega
  unfold updateMyStatus
  by_cases hh : isSameMachine ctx st.table.host.identity = true
  · refine ⟨setStatusPos st.table.host s p, ?_, ?_, setStatusPos_status _ _ _⟩
    · simp [hh]
    · rw [setStatusPos_identity]; exact hh
  · rw [Bool.not_eq_true] at hh
    obtain ⟨r, hr, hs1, hs2⟩ := updateFirstSame_exists ctx s p st.table.queue hq
    have hfound : (updateFirstSame ctx s p st.table.queue).2 = true :=
      updateFirstSame_found ctx s p st.table.queue hq
    refine ⟨r, ?_, hs1, hs2⟩
    simp only [hh, Bool.false_eq_true, if_false, hfound, if_true]
    exact Or.inr hr

theorem cleanScan_identity_mem (now : Nat) :
    ∀ (q : List Row) (seen : List String), ∀ r ∈ (cleanScan now seen q).1,
      ∃ s ∈ q, r.identity = s.identity := by
  intro q
  induction q with
  | nil => intro seen r hr; simp [cleanScan] at hr
  | cons a rest ih =>
    intro seen r hr
    have htail : ∀ seen2 : List String, r ∈ (cleanScan now seen2 rest).1 →
        ∃ s ∈ a :: rest, r.identity = s.identity := by
      intro seen2 h2
      obtain ⟨s, hs, he⟩ := ih seen2 r h2
      exact ⟨s, List.mem_cons_of_mem _ hs, he⟩
    by_cases ha : a.identity = ""
    · simp only [cleanScan, if_pos ha] at hr
      rcases List.mem_cons.mp hr with h | h
      · exact ⟨a, List.mem_cons_self _ _, by rw [h]⟩
      · exact htail seen h
    · cases hk : extractMachineId a.identity with
      | some k =>
        by_cases hseen : seen.contains k = true
        · simp only [cleanScan, if_neg ha, hk, hseen, if_true] at hr
          exact htail seen hr
        · rw [Bool.not_eq_true] at hseen
          by_cases hoff : hbStale now OFFLINE_TIMEOUT a.lastHeartbeat = true
          · simp only [cleanScan, if_neg ha, hk, hseen, hoff, Bool.false_eq_true,
              if_false, if_true] at hr
            exact htail (k :: seen) hr
          · rw [Bool.not_eq_true] at hoff
            by_cases hmark : (hbStale now HOST_DEAD_TIMEOUT a.lastHeartbeat
                && (a.status != STATUS_OFFLINE) && (a.status != STATUS_HOST)) = true
            · simp only [cleanScan, if_neg ha, hk, hseen, hoff, hmark,
                Bool.false_eq_true, if_false, if_true] at hr
              rcases List.mem_cons.mp hr with h | h
              · exact ⟨a, List.mem_cons_self _ _, by rw [h]⟩
              · exact htail (k :: seen) h
            · rw [Bool.not_eq_true] at hmark
              simp only [cleanScan, if_neg ha, hk, hseen, hoff, hmark,
                Bool.false_eq_true, if_false] at hr
              rcases List.mem_cons.mp hr with h | h
              · exact ⟨a, List.mem_cons_self _ _, by rw [h]⟩
              · exact htail (k :: seen) h
      | none =>
        by_cases hoff : hbStale now OFFLINE_TIMEOUT a.lastHeartbeat = true
        · simp only [cleanScan, if_neg ha, hk, hoff, if_true] at hr
          exact htail seen hr
        · rw [Bool.not_eq_true] at hoff
          by_cases hmark : (hbStale now HOST_DEAD_TIMEOUT a.lastHeartbeat
              && (a.status != STATUS_OFFLINE) && (a.status != STATUS_HOST)) = true
          · simp only [cleanScan, if_neg ha, hk, hoff, hmark, Bool.false_eq_true,
              if_false, if_true] at hr
            rcases List.mem_cons.mp hr with h | h
            · exact ⟨a, List.mem_cons_self _ _, by rw [h]⟩
            · exact htail seen h
          · rw [Bool.not_eq_true] at hmark
            simp only [cleanScan, if_neg ha, hk, hoff, hmark, Bool.false_eq_true,
              if_false] at hr
            rcases List.mem_cons.mp hr with h | h
            · exact ⟨a, List.mem_cons_self _ _, by rw [h]⟩
            · exact htail seen h

theorem cleanupAll_isHost (ctx : Ctx) (st : St) (force : Bool) :
    (cleanupAll ctx st force).1.isHost = st.isHost := by
  simp only [cleanupAll, updateQueuePositions]
  split
  · rfl
  · split
    · rfl
    · split
      · rfl
      · rfl

theorem cleanupAll_host (ctx : Ctx) (st : St) (force : Bool) :
    (cleanupAll ctx st force).1.table.host = st.table.host ∨
      (cleanupAll ctx st force).1.table.host = Row.empty := by
  simp only [cleanupAll, updateQueuePositions]
  split
  · exact Or.inl rfl
  · split
    · exact Or.inr rfl
    · split
      · exact Or.inl rfl
      · exact Or.inl rfl

theorem cleanupAll_queue_ids (ctx : Ctx) (st : St) (force : Bool) :
    ∀ r ∈ (cleanupAll ctx st force).1.table.queue,
      ∃ s ∈ st.table.queue, r.identity = s.identity := by
  simp only [cleanupAll, updateQueuePositions]
  split
  · intro r hr; exact ⟨r, hr, rfl⟩
  · split
    · intro r hr; exact ⟨r, hr, rfl⟩
    · split
      · intro r hr
        obtain ⟨u, hu, h1, -⟩ := renumberFrom_mem _ 1 r hr
        obtain ⟨v, hv, h2⟩ := cleanScan_identity_mem ctx.now _ [] u hu
        exact ⟨v, hv, h1.trans h2⟩
      · intro r hr; exact ⟨r, hr, rfl⟩

theorem cleanupAll_lastCleanup_lt (ctx : Ctx) (st : St) :
    ctx.now - (cleanupAll ctx st false).1.lastCleanup < MIN_CLEANUP_INTERVAL := by
  by_cases h : ctx.now - st.lastCleanup < MIN_CLEANUP_INTERVAL
  · simp [cleanupAll, h]
  · have hc : (!false && decide (ctx.now - st.lastCleanup < MIN_CLEANUP_INTERVAL))
        = false := by simp [h]
    simp only [cleanupAll, hc, Bool.false_eq_true, if_false, updateQueuePositions]
    split
    · simp [MIN_CLEANUP_INTERVAL]
    · split
      · simp [MIN_CLEANUP_INTERVAL]
      · simp [MIN_CLEANUP_INTERVAL]

theorem afterCleanup_isHost (ctx : Ctx) (st : St) (force : Bool) :
    (afterCleanup ctx st force).isHost = st.isHost :=
  cleanupAll_isHost ctx { st with ops := st.ops + 1 } force

theorem afterCleanup_host (ctx : Ctx) (st : St) (force : Bool) :
    (afterCleanup ctx st force).table.host = st.table.host ∨
      (afterCleanup ctx st force).table.host = Row.empty :=
  cleanupAll_host ctx { st with ops := st.ops + 1 } force

theorem afterCleanup_queue_ids (ctx : Ctx) (st : St) (force : Bool) :
    ∀ r ∈ (afterCleanup ctx st force).table.queue,
      ∃ s ∈ st.table.queue, r.identity = s.identity :=
  cleanupAll_queue_ids ctx { st with ops := st.ops + 1 } force

theorem afterCleanup_lastCleanup_lt (ctx : Ctx) (st : St) :
    ctx.now - (afterCleanup ctx st false).lastCleanup < MIN_CLEANUP_INTERVAL :=
  cleanupAll_lastCleanup_lt ctx { st with ops := st.ops + 1 }

theorem tryAcquire_queued_shape (ctx : Ctx) (st : St)
    (h : 0 < getMyQueuePosition ctx st.table) :
    tryAcquire ctx st false
      = (updateMyStatus ctx { st with ops := st.ops + 1 } STATUS_WAITING
          (some (getMyQueuePosition ctx st.table)),
         ⟨true, false, AcqMsg.alreadyQueued, some st.table.host.identity,
          some (getMyQueuePosition ctx st.table)⟩) := by
  simp only [tryAcquire, if_pos h]

theorem tryAcquire_become_shape (ctx : Ctx) (st : St)
    (h0 : getMyQueuePosition ctx st.table = 0)
    (he : (afterCleanup ctx st false).table.host.identity = "") :
    tryAcquire ctx st false
      = (becomeHost ctx (afterCleanup ctx st false),
         ⟨true, true, AcqMsg.acquired, some ctx.identity, none⟩) := by
  simp only [tryAcquire, h0, lt_self_iff_false, if_false, he, if_true]

theorem tryAcquire_recover_shape (ctx : Ctx) (st : St)
    (h0 : getMyQueuePosition ctx st.table = 0)
    (hne : ¬ (afterCleanup ctx st false).table.host.identity = "")
    (hsm : isSameMachine ctx (afterCleanup ctx st false).table.host.identity = true) :
    tryAcquire ctx st false
      = (updateMyStatus ctx
          { table := { host := { (afterCleanup ctx st false).table.host with
                         lastHeartbeat := some ctx.now },
                       queue := (afterCleanup ctx st false).table.queue },
            isHost := true,
            lastCleanup := (afterCleanup ctx st false).lastCleanup,
            ops := (afterCleanup ctx st false).ops + 1 }
          STATUS_HOST none,
         ⟨true, true, AcqMsg.recovered,
          some (afterCleanup ctx st false).table.host.identity, none⟩) := by
  simp only [tryAcquire, h0, lt_self_iff_false, if_false, hne, hsm, if_true]

theorem tryAcquire_join_shape (ctx : Ctx) (st : St)
    (h0 : getMyQueuePosition ctx st.table = 0)
    (hne : ¬ (afterCleanup ctx st false).table.host.identity = "")
    (hns : isSameMachine ctx (afterCleanup ctx st false).table.host.identity = false) :
    tryAcquire ctx st false
      = joinQueue ctx (afterCleanup ctx st false)
          (afterCleanup ctx st false).table.host.identity := by
  simp only [tryAcquire, h0, lt_self_iff_false, if_false, hne, hns, Bool.false_eq_true]

theorem updateMyStatus_queue_length (ctx : Ctx) (st : St) (s : String) (p : Option Nat) :
    (updateMyStatus ctx st s p).table.queue.length = st.table.queue.length := by
  have h := congrArg List.length (updateMyStatus_queue_map ctx st s p)
  simpa using h

theorem tryAcquire_requeue_shape (ctx : Ctx) (s1 : St) (pos : Nat)
    (hpos : getMyQueuePosition ctx s1.table = pos) (hp : 0 < pos) :
    tryAcquire ctx s1 false
      = (updateMyStatus ctx { s1 with ops := s1.ops + 1 } STATUS_WAITING (some pos),
         ⟨true, false, AcqMsg.alreadyQueued, some s1.table.host.identity, some pos⟩) := by
  have h := tryAcquire_queued_shape ctx s1 (by rw [hpos]; exact hp)
  rw [hpos] at h
  exact h

theorem tryAcquire_recover_throttled_shape (ctx : Ctx) (s1 : St)
    (hpos : getMyQueuePosition ctx s1.table = 0)
    (hthr : ctx.now - s1.lastCleanup < MIN_CLEANUP_INTERVAL)
    (hne : s1.table.host.identity ≠ "")
    (hsm : isSameMachine ctx s1.table.host.identity = true) :
    tryAcquire ctx s1 false
      = (updateMyStatus ctx
          { table := { host := { s1.table.host with lastHeartbeat := some ctx.now },
                       queue := s1.table.queue },
            isHost := true, lastCleanup := s1.lastCleanup, ops := s1.ops + 1 + 1 + 1 }
          STATUS_HOST none,
         ⟨true, true, AcqMsg.recovered, some s1.table.host.identity, none⟩) := by
  have hAC := afterCleanup_throttled ctx s1 hthr
  have hne2 : ¬ (afterCleanup ctx s1 false).table.host.identity = "" := by
    rw [hAC]; exact hne
  have hsm2 : isSameMachine ctx (afterCleanup ctx s1 false).table.host.identity = true := by
    rw [hAC]; exact hsm
  have h := tryAcquire_recover_shape ctx s1 hpos hne2 hsm2
  rw [hAC] at h
  exact h

/-- C4: calling try_acquire twice from the same identity — any well-formed
context, whose machine id occurs in its own identity string — with no
intervening release yields the same host/queued value in both results and
adds no second row for that identity: the second call leaves the queue
length and the HOST identity exactly as the first call left them; a caller
the first call left queued gets "already queued" at the same position with
a same-machine row refreshed to WAITING, and a caller the first call left
as host reacquires with a "recovered session". -/
theorem try_acquire_idempotent (ctx : Ctx) (st : St)
    (hid : isSameMachine ctx ctx.identity = true) :
    ((tryAcquire ctx (tryAcquire ctx st false).1 false).2.isHost
        = (tryAcquire ctx st false).2.isHost) ∧
    ((tryAcquire ctx (tryAcquire ctx st false).1 false).1.table.queue.length
        = (tryAcquire ctx st false).1.table.queue.length) ∧
    ((tryAcquire ctx (tryAcquire ctx st false).1 false).1.table.host.identity
        = (tryAcquire ctx st false).1.table.host.identity) ∧
    ((tryAcquire ctx st false).2.isHost = false →
      (tryAcquire ctx (tryAcquire ctx st false).1 false).2.msg = AcqMsg.alreadyQueued ∧
      (tryAcquire ctx (tryAcquire ctx st false).1 false).2.queuePosition
        = (tryAcquire ctx st false).2.queuePosition ∧
      ∃ r, (r = (tryAcquire ctx (tryAcquire ctx st false).1 false).1.table.host ∨
            r ∈ (tryAcquire ctx (tryAcquire ctx st false).1 false).1.table.queue) ∧
        isSameMachine ctx r.identity = true ∧ r.status = STATUS_WAITING) ∧
    ((tryAcquire ctx st false).2.isHost = true →
      (tryAcquire ctx (tryAcquire ctx st false).1 false).2.msg = AcqMsg.recovered) := by
  by_cases h1 : 0 < getMyQueuePosition ctx st.table
  · -- the caller was already queued: both calls report "already queued"
    have hs1 := tryAcquire_queued_shape ctx st h1
    have hmapA : (tryAcquire ctx st false).1.table.queue.map Row.identity
        = st.table.queue.map Row.identity := by
      rw [hs1]
      exact updateMyStatus_queue_map ctx { st with ops := st.ops + 1 } STATUS_WAITING
        (some (getMyQueuePosition ctx st.table))
    have hpos2 : getMyQueuePosition ctx (tryAcquire ctx st false).1.table
        = getMyQueuePosition ctx st.table := getMyQueuePositionAux_congr ctx hmapA 1
    have hs2 := tryAcquire_requeue_shape ctx (tryAcquire ctx st false).1
      (getMyQueuePosition ctx st.table) hpos2 h1
    refine ⟨?_, ?_, ?_, ?_, ?_⟩
    · rw [hs2, hs1]
    · rw [hs2]
      exact updateMyStatus_queue_length ctx _ STATUS_WAITING _
    · rw [hs2]
      exact updateMyStatus_host_identity ctx _ STATUS_WAITING _
    · intro _
      refine ⟨?_, ?_, ?_⟩
      · rw [hs2]
      · rw [hs2, hs1]
      · rw [hs2]
        refine updateMyStatus_sets_status ctx _ STATUS_WAITING _ ?_
        show 0 < getMyQueuePosition ctx (tryAcquire ctx st false).1.table
        rw [hpos2]; exact h1
    · intro h
      rw [hs1] at h
      simp at h
  · -- the caller was not queued before the first call
    have h1' : getMyQueuePosition ctx st.table = 0 := Nat.eq_zero_of_not_pos h1
    have hqz : ∀ r ∈ st.table.queue, isSameMachine ctx r.identity = false :=
      getMyQueuePositionAux_zero ctx st.table.queue 1 Nat.one_pos h1'
    have hCq : ∀ r ∈ (afterCleanup ctx st false).table.queue,
        isSameMachine ctx r.identity = false := by
      intro r hr
      obtain ⟨s, hs, he⟩ := afterCleanup_queue_ids ctx st false r hr
      rw [he]; exact hqz s hs
    have hCthr := afterCleanup_lastCleanup_lt ctx st
    by_cases he : (afterCleanup ctx st false).table.host.identity = ""
    · -- first call becomes host; second call recovers the session
      have hs1 := tryAcquire_become_shape ctx st h1' he
      have hident : (tryAcquire ctx st false).1.table.host.identity = ctx.identity := by
        rw [hs1]; rfl
      have hpos2 : getMyQueuePosition ctx (tryAcquire ctx st false).1.table = 0 := by
        rw [hs1]
        exact getMyQueuePositionAux_of_none ctx (afterCleanup ctx st false).table.queue hCq 1
      have hthr2 : ctx.now - (tryAcquire ctx st false).1.lastCleanup
          < MIN_CLEANUP_INTERVAL := by
        rw [hs1]; exact hCthr
      have hne2 : (tryAcquire ctx st false).1.table.host.identity ≠ "" := by
        rw [hident]; exact isSameMachine_ne_empty hid
      have hsm2 : isSameMachine ctx (tryAcquire ctx st false).1.table.host.identity
          = true := by
        rw [hident]; exact hid
      have hs2 := tryAcquire_recover_throttled_shape ctx (tryAcquire ctx st false).1
        hpos2 hthr2 hne2 hsm2
      refine ⟨?_, ?_, ?_, ?_, ?_⟩
      · rw [hs2, hs1]
      · rw [hs2]
        exact updateMyStatus_queue_length ctx _ STATUS_HOST none
      · rw [hs2]
        exact updateMyStatus_host_identity ctx _ STATUS_HOST none
      · intro h
        rw [hs1] at h
        simp at h
      · intro _
        rw [hs2]
    · by_cases hsm : isSameMachine ctx (afterCleanup ctx st false).table.host.identity
          = true
      · -- first call recovers; second call recovers again
        have hs1 := tryAcquire_recover_shape ctx st h1' he hsm
        have hident : (tryAcquire ctx st false).1.table.host.identity
            = (afterCleanup ctx st false).table.host.identity := by
          rw [hs1]
          exact updateMyStatus_host_identity ctx _ STATUS_HOST none
        have hmap : (tryAcquire ctx st false).1.table.queue.map Row.identity
            = (afterCleanup ctx st false).table.queue.map Row.identity := by
          rw [hs1]
          exact updateMyStatus_queue_map ctx _ STATUS_HOST none
        have hpos2 : getMyQueuePosition ctx (tryAcquire ctx st false).1.table = 0 :=
          (getMyQueuePositionAux_congr ctx hmap 1).trans
            (getMyQueuePositionAux_of_none ctx _ hCq 1)
        have hlc : (tryAcquire ctx st false).1.lastCleanup
            = (afterCleanup ctx st false).lastCleanup := by
          rw [hs1]
          exact updateMyStatus_lastCleanup ctx _ STATUS_HOST none
        have hthr2 : ctx.now - (tryAcquire ctx st false).1.lastCleanup
            < MIN_CLEANUP_INTERVAL := by
          rw [hlc]; exact hCthr
        have hne2 : (tryAcquire ctx st false).1.table.host.identity ≠ "" := by
          rw [hident]; exact he
        have hsm2 : isSameMachine ctx (tryAcquire ctx st false).1.table.host.identity
            = true := by
          rw [hident]; exact hsm
        have hs2 := tryAcquire_recover_throttled_shape ctx (tryAcquire ctx st false).1
          hpos2 hthr2 hne2 hsm2
        refine ⟨?_, ?_, ?_, ?_, ?_⟩
        · rw [hs2, hs1]
        · rw [hs2]
          exact updateMyStatus_queue_length ctx _ STATUS_HOST none
        · rw [hs2]
          exact updateMyStatus_host_identity ctx _ STATUS_HOST none
        · intro h
          rw [hs1] at h
          simp at h
        · intro _
          rw [hs2]
      · -- first call joins the queue; second call reports "already queued"
        have hns : isSameMachine ctx (afterCleanup ctx st false).table.host.identity
            = false := by
          rw [Bool.not_eq_true] at hsm; exact hsm
        have hs1 := tryAcquire_join_shape ctx st h1' he hns
        have hpos2 : getMyQueuePosition ctx (tryAcquire ctx st false).1.table
            = (afterCleanup ctx st false).table.queue.length + 1 := by
          rw [hs1]
          simp only [joinQueue]
          exact getMyQueuePositionAux_append ctx hid
            (afterCleanup ctx st false).table.queue hCq 1
        have hs2 := tryAcquire_requeue_shape ctx (tryAcquire ctx st false).1
          ((afterCleanup ctx st false).table.queue.length + 1) hpos2 (Nat.succ_pos _)
        refine ⟨?_, ?_, ?_, ?_, ?_⟩
        · rw [hs2, hs1] ; rfl
        · rw [hs2]
          exact updateMyStatus_queue_length ctx _ STATUS_WAITING _
        · rw [hs2]
          exact updateMyStatus_host_identity ctx _ STATUS_WAITING _
        · intro _
          refine ⟨?_, ?_, ?_⟩
          · rw [hs2]
          · rw [hs2, hs1] ; rfl
          · rw [hs2]
            refine updateMyStatus_sets_status ctx _ STATUS_WAITING _ ?_
            show 0 < getMyQueuePosition ctx (tryAcquire ctx st false).1.table
            rw [hpos2]; exact Nat.succ_pos _
        · intro h
          rw [hs1] at h
          simp [joinQueue] at h

/-- Witness for C4: the first call from the sample context joins the queue
behind the live foreign host; the second call reports the same non-host
status and the same queue position. -/
theorem try_acquire_idempotent_witness :
    ((tryAcquire wCtx (tryAcquire wCtx wStForeignHost false).1 false).2.isHost
        = (tryAcquire wCtx wStForeignHost false).2.isHost) ∧
    ((tryAcquire wCtx (tryAcquire wCtx wStForeignHost false).1 false).2.queuePosition
        = (tryAcquire wCtx wStForeignHost false).2.queuePosition) :=
  ⟨(try_acquire_idempotent wCtx wStForeignHost (by decide)).1,
   ((try_acquire_idempotent wCtx wStForeignHost (by decide)).2.2.2.1 (by decide)).2.1⟩

end HostControl

